import Mathlib

/-!
Meta (shape-only) kernels of `fbgemm_gpu/src/sparse_ops/sparse_ops_meta.cpp`

A shallow embedding of the two shape-inference stubs
`pack_segments_forward_meta` and `offsets_range_meta_symint`, of the
`TORCH_LIBRARY_IMPL(fbgemm, Meta, m)` registration block, and of the
preprocessor gate of `fbgemm_gpu/codegen/embedding_op_registration.h`.

The stubs are written against the host tensor framework (ATen / c10).  The
host primitives they call are not part of the repository; each one is
modelled by a small executable definition whose doc comment says so.
Every host call that can throw returns `Except HostError _`, and the stubs
are written in the `Except` monad, so an exception raised by a primitive
propagates out of the stub unchanged, as it does in C++.
-/

namespace fbgemm_gpu

/-! ## Host data model -/

/-- Element types of the host framework (a representative part of
`c10::ScalarType`). -/
inductive ScalarType
  | Byte
  | Char
  | Short
  | Int
  | Long
  | Half
  | Float
  | Double
  | Bool
  | BFloat16
  deriving DecidableEq, Repr

/-- Device classes of the host framework (`c10::DeviceType`). -/
inductive DeviceType
  | CPU
  | CUDA
  | Meta
  deriving DecidableEq, Repr

/-- Memory layouts of the host framework (`c10::Layout`). -/
inductive Layout
  | Strided
  | Sparse
  deriving DecidableEq, Repr

/-- Modelled from the spec: the host type `at::TensorOptions`, the part of a
tensor descriptor that is not its shape: element type, device class and
layout. -/
structure TensorOptions where
  dtype : ScalarType
  device : DeviceType
  layout : Layout
  deriving DecidableEq, Repr

/-- Modelled from the spec: the host type `at::Tensor`, a descriptor carrying
the shape (ordered dimension sizes, which the host keeps non-negative), the
options, and the element data.  The element data is kept as a flat list so
that two tensors with the same descriptor and different contents can be
told apart. -/
structure Tensor where
  sizes : List Nat
  options : TensorOptions
  data : List Int
  deriving DecidableEq, Repr

/-- Errors raised by the host framework's primitives. -/
inductive HostError
  | dimension_out_of_range (d : Int) (rank : Int)
  | negative_dimension (size : Int)
  | duplicate_registration (name : String)
  deriving DecidableEq, Repr

/-- The host type `at::DimVector`: a growable vector of `int64_t`. -/
abbrev DimVector := List Int

/-- The operation `DimVector::push_back`. -/
def DimVector.push_back (v : DimVector) (x : Int) : DimVector :=
  v ++ [x]

/-- The host type `at::SymInt`, here always holding a concrete integer. -/
abbrev SymInt := Int

/-- Modelled from the spec: the host accessor `Tensor::dim()`, the rank. -/
def Tensor.dim (t : Tensor) : Int :=
  (t.sizes.length : Int)

/-- Modelled from the spec: the host accessor `Tensor::numel()`, the total
number of elements, the product of all dimension sizes (1 for rank 0). -/
def Tensor.numel (t : Tensor) : Int :=
  (t.sizes.prod : Int)

/-- Modelled from the spec: the host accessor `Tensor::sizes()`, the shape as
a sequence of `int64_t`. -/
def Tensor.shape (t : Tensor) : List Int :=
  t.sizes.map (fun (n : Nat) => (n : Int))

/-- Modelled from the spec: the host accessor `Tensor::options()`. -/
def Tensor.get_options (t : Tensor) : TensorOptions :=
  t.options

/-- Modelled from the spec: the host helper `c10::maybe_wrap_dim(d, rank,
wrap_scalar = false)` used by dimension access.  A rank-0 tensor has no
valid dimension index; otherwise the valid indices are `-rank .. rank - 1`
and negative ones count from the back. -/
def maybe_wrap_dim (d rank : Int) : Except HostError Int :=
  if rank ≤ 0 then Except.error (HostError.dimension_out_of_range d rank)
  else if d < -rank ∨ rank - 1 < d then
    Except.error (HostError.dimension_out_of_range d rank)
  else if d < 0 then Except.ok (d + rank)
  else Except.ok d

/-- Modelled from the spec: the host accessor `Tensor::size(d)`; "dimension
access itself would fail" when `d` is not a dimension of the tensor. -/
def Tensor.size (t : Tensor) (d : Int) : Except HostError Int := do
  let i ← maybe_wrap_dim d t.dim
  match t.sizes.get? i.toNat with
  | some s => Except.ok (s : Int)
  | none => Except.error (HostError.dimension_out_of_range d t.dim)

/-- Modelled from the spec: the host's dimension-range iteration helper
`c10::irange(begin, end)`, the half-open interval `[begin, end)` in
increasing order, empty when `end ≤ begin`. -/
def irange (b e : Int) : List Int :=
  (List.range (e - b).toNat).map (fun (k : Nat) => b + (k : Int))

/-- Modelled from the spec: the host constructor `at::empty(size, options)`.
It fails exactly when a requested dimension size is negative; otherwise it
yields a tensor of that shape and those options.  The contents of a fresh
tensor are unspecified (a Meta tensor has none), so it carries no data. -/
def empty (size : DimVector) (options : TensorOptions) : Except HostError Tensor :=
  match size.find? (fun s => decide (s < 0)) with
  | some s => Except.error (HostError.negative_dimension s)
  | none => Except.ok { sizes := size.map Int.toNat, options := options, data := [] }

/-- Modelled from the spec: the host constructor `at::empty_symint`, the
same constructor taking symbolic sizes. -/
def empty_symint (size : List SymInt) (options : TensorOptions) : Except HostError Tensor :=
  empty size options

/-! ## The shape-inference stubs -/

/-- The stub `pack_segments_forward_meta` of `sparse_ops_meta.cpp`: start
the shape with `{lengths.numel(), max_length}`, push `t_in.size(i)` for
each `i` in `c10::irange(1, t_in.dim())`, and create an empty tensor of
that shape with the options of `t_in`. -/
def pack_segments_forward_meta (t_in lengths : Tensor) (max_length : Int) :
    Except HostError Tensor := do
  let init : DimVector := [lengths.numel, max_length]
  let padded_values_shape ← (irange 1 t_in.dim).foldlM
    (fun (acc : DimVector) (i : Int) => do
      let s ← t_in.size i
      pure (acc.push_back s))
    init
  empty padded_values_shape t_in.get_options

/-- The stub `offsets_range_meta_symint` of `sparse_ops_meta.cpp`; the
single `SymInt` converts to a one-element size list. -/
def offsets_range_meta_symint (offsets : Tensor) (range_size : SymInt) :
    Except HostError Tensor :=
  empty_symint [range_size] offsets.get_options

/-- Whether a host call raised an error instead of returning. -/
def failed {α : Type} (r : Except HostError α) : Bool :=
  match r with
  | Except.error _ => true
  | Except.ok _ => false

/-! ## The registration block -/

/-- Dispatch keys of the host framework (a representative part). -/
inductive DispatchKey
  | CPU
  | CUDA
  | Meta
  | Autograd
  deriving DecidableEq, Repr

/-- The kernel functions named by the registration block. -/
inductive KernelFn
  | pack_segments_forward_meta
  | asynchronous_complete_cumsum_meta
  | offsets_range_meta_symint
  deriving DecidableEq, Repr

/-- Modelled from the spec: an operator registration entry, a mapping from
(operator name, dispatch key) to a function. -/
structure Registration where
  name : String
  key : DispatchKey
  fn : KernelFn
  deriving DecidableEq, Repr

/-- Modelled from the spec: the host registry of the `fbgemm` operator
library, the entries in the order they were registered. -/
abbrev Registry := List Registration

/-- The (operator name, dispatch key) pairs held by a registry. -/
def Registry.pairs (r : Registry) : List (String × DispatchKey) :=
  r.map (fun e => (e.name, e.key))

/-- Modelled from the spec: the host call `m.impl(name, fn)` on a library
handle `m` bound to dispatch key `key`; "registering the same operator/key
pair twice should be rejected", otherwise the entry is added. -/
def impl (key : DispatchKey) (r : Registry) (name : String) (fn : KernelFn) :
    Except HostError Registry :=
  if (name, key) ∈ r.pairs then Except.error (HostError.duplicate_registration name)
  else Except.ok (r ++ [{ name := name, key := key, fn := fn }])

/-- The block `TORCH_LIBRARY_IMPL(fbgemm, Meta, m)` of `sparse_ops_meta.cpp`:
three `m.impl` calls in source order. -/
def TORCH_LIBRARY_IMPL_fbgemm_Meta (r : Registry) : Except HostError Registry := do
  let r1 ← impl DispatchKey.Meta r "pack_segments" KernelFn.pack_segments_forward_meta
  let r2 ← impl DispatchKey.Meta r1 "asynchronous_complete_cumsum"
    KernelFn.asynchronous_complete_cumsum_meta
  impl DispatchKey.Meta r2 "offsets_range" KernelFn.offsets_range_meta_symint

/-- The (operator name, dispatch key) pairs the block contributes, read off
the three `m.impl` lines. -/
def registered_pairs : List (String × DispatchKey) :=
  [("pack_segments", DispatchKey.Meta),
   ("asynchronous_complete_cumsum", DispatchKey.Meta),
   ("offsets_range", DispatchKey.Meta)]

/-! ## The toolchain gate of `embedding_op_registration.h` -/

/-- The version test of line 14,
`__CUDACC_VER_MAJOR__ > 11 || __CUDACC_VER_MINOR__ >= 4`. -/
def cudacc_version_gate (major minor : Int) : Bool :=
  decide (major > 11) || decide (minor ≥ 4)

/-- Whether the `__builtin_ia32_serialize` stub is compiled in: the flag
`FBGEMM_GPU_ENABLE_DUMMY_IA32_SERIALIZE` is defined, `__NVCC__` is defined,
and the version test holds (lines 11 to 14). -/
def builtin_ia32_serialize_stub_defined (enable_dummy nvcc : Bool)
    (major minor : Int) : Bool :=
  enable_dummy && (nvcc && cudacc_version_gate major minor)

/-- The lexicographic comparison `(major, minor) ≥ (11, 4)` of toolchain
versions, as the specification words it. -/
def version_lex_ge_11_4 (major minor : Int) : Bool :=
  decide (major > 11) || (decide (major = 11) && decide (minor ≥ 4))

/-! ## Sample values -/

/-- Options of a single-precision Meta tensor. -/
def float_meta : TensorOptions :=
  { dtype := ScalarType.Float, device := DeviceType.Meta, layout := Layout.Strided }

/-- Options of a 64-bit integer Meta tensor. -/
def long_meta : TensorOptions :=
  { dtype := ScalarType.Long, device := DeviceType.Meta, layout := Layout.Strided }

/-- A tensor of shape `[4, 3]`. -/
def sample_input : Tensor :=
  { sizes := [4, 3], options := float_meta, data := [1, 2, 3, 4, 5, 6, 7, 8, 9, 10, 11, 12] }

/-- A one-dimensional tensor of two segment lengths. -/
def sample_lengths : Tensor :=
  { sizes := [2], options := long_meta, data := [1, 3] }

/-- A one-dimensional tensor of ten offsets. -/
def sample_offsets : Tensor :=
  { sizes := [10], options := long_meta, data := [0, 1, 1, 2, 3, 5, 8, 13, 21, 34] }

/-- A rank-0 (scalar) tensor. -/
def sample_scalar : Tensor :=
  { sizes := [], options := float_meta, data := [42] }

end fbgemm_gpu

namespace fbgemm_gpu

/-! ## Auxiliary facts about the host model -/

theorem irange_empty (b e : Int) (h : e ≤ b) : irange b e = [] := by
  have h0 : (e - b).toNat = 0 := by omega
  simp [irange, h0]

theorem irange_cons (b e : Int) (h : b < e) : irange b e = b :: irange (b + 1) e := by
  have h1 : (e - b).toNat = (e - (b + 1)).toNat + 1 := by omega
  unfold irange
  rw [h1, List.range_succ_eq_map]
  simp only [List.map_cons, List.map_map, Nat.cast_zero, add_zero, List.cons.injEq, true_and]
  apply List.map_congr_left
  intro k _
  show b + ((k + 1 : Nat) : Int) = b + 1 + (k : Int)
  push_cast
  ring

theorem size_of_lt (t : Tensor) (j : Nat) (h : j < t.sizes.length) :
    t.size (j : Int) = Except.ok ((t.sizes.get ⟨j, h⟩ : Nat) : Int) := by
  have h1 : ¬ ((t.sizes.length : Int) ≤ 0) := by omega
  have h2 : ¬ ((j : Int) < -(t.sizes.length : Int) ∨ (t.sizes.length : Int) - 1 < (j : Int)) := by
    omega
  have h3 : ¬ ((j : Int) < 0) := by omega
  have h4 : t.sizes.get? j = some (t.sizes.get ⟨j, h⟩) := List.get?_eq_get h
  simp only [Tensor.size, Tensor.dim, maybe_wrap_dim, h1, h2, h3, if_false]
  show (match t.sizes.get? ((j : Int).toNat) with
    | some s => Except.ok (s : Int)
    | none => Except.error (HostError.dimension_out_of_range (j : Int) (t.sizes.length : Int)))
    = Except.ok ((t.sizes.get ⟨j, h⟩ : Nat) : Int)
  rw [Int.toNat_natCast, h4]

/-- The dimension loop of `pack_segments_forward_meta`, started at index `j`
with accumulator `acc`, never fails and appends the sizes from `j` on. -/
theorem dim_loop_from (t : Tensor) (k : Nat) :
    ∀ (j : Nat) (acc : DimVector), t.sizes.length - j = k →
      (irange (j : Int) t.dim).foldlM
        (fun (acc : DimVector) (i : Int) => do
          let s ← t.size i
          pure (acc.push_back s)) acc
      = (Except.ok (acc ++ (t.sizes.drop j).map (fun (n : Nat) => (n : Int))) :
          Except HostError DimVector) := by
  induction k with
  | zero =>
    intro j acc hk
    have hle : t.sizes.length ≤ j := by omega
    have hr : irange (j : Int) t.dim = [] := by
      apply irange_empty
      simp only [Tensor.dim]
      omega
    rw [hr, List.drop_eq_nil_of_le hle]
    simp [List.foldlM, pure, Except.pure]
  | succ k ih =>
    intro j acc hk
    have hlt : j < t.sizes.length := by omega
    have hr : irange (j : Int) t.dim = (j : Int) :: irange ((j + 1 : Nat) : Int) t.dim := by
      rw [irange_cons]
      · simp
      · simp only [Tensor.dim]
        omega
    have hd : t.sizes.drop j = t.sizes.get ⟨j, hlt⟩ :: t.sizes.drop (j + 1) := by
      rw [List.get_eq_getElem]
      exact List.drop_eq_getElem_cons hlt
    rw [hr, List.foldlM_cons, size_of_lt t j hlt]
    have step := ih (j + 1) (DimVector.push_back acc ((t.sizes.get ⟨j, hlt⟩ : Nat) : Int))
      (by omega)
    simp only [bind, Except.bind, pure, Except.pure] at step ⊢
    rw [step, hd]
    simp only [DimVector.push_back, List.map_cons, List.append_assoc, List.singleton_append]

/-- The stub `pack_segments_forward_meta` is one call of the host constructor
on the shape `[lengths.numel(), max_length]` followed by the sizes of
`t_in` after the first; the dimension loop itself never fails. -/
theorem pack_segments_unfold (t_in lengths : Tensor) (max_length : Int) :
    pack_segments_forward_meta t_in lengths max_length =
      empty ([lengths.numel, max_length] ++
        (t_in.sizes.drop 1).map (fun (n : Nat) => (n : Int))) t_in.options := by
  have h := dim_loop_from t_in (t_in.sizes.length - 1) 1 [lengths.numel, max_length] rfl
  simp only [Nat.cast_one] at h
  unfold pack_segments_forward_meta
  simp only [bind, Except.bind] at h ⊢
  rw [h]
  rfl

theorem empty_of_nonneg (size : DimVector) (o : TensorOptions) (h : ∀ s ∈ size, 0 ≤ s) :
    empty size o = Except.ok { sizes := size.map Int.toNat, options := o, data := [] } := by
  have hn : size.find? (fun s => decide (s < 0)) = none := by
    rw [List.find?_eq_none]
    intro x hx
    have := h x hx
    simp only [decide_eq_true_eq]
    omega
  unfold empty
  rw [hn]

theorem empty_failed_iff (size : DimVector) (o : TensorOptions) :
    failed (empty size o) = true ↔ ∃ s ∈ size, s < 0 := by
  constructor
  · intro hf
    by_contra hne
    have hall : ∀ s ∈ size, 0 ≤ s := by
      intro s hs
      by_contra hlt
      exact hne ⟨s, hs, by omega⟩
    rw [empty_of_nonneg size o hall] at hf
    simp [failed] at hf
  · rintro ⟨s, hs, hlt⟩
    unfold empty
    cases hfind : size.find? (fun s => decide (s < 0)) with
    | none =>
      rw [List.find?_eq_none] at hfind
      have := hfind s hs
      simp only [decide_eq_true_eq] at this
      exact absurd hlt this
    | some x => rfl

theorem pack_shape_nonneg (t_in lengths : Tensor) (max_length : Int) (h : 0 ≤ max_length) :
    ∀ s ∈ [lengths.numel, max_length] ++
        (t_in.sizes.drop 1).map (fun (n : Nat) => (n : Int)), 0 ≤ s := by
  intro s hs
  simp only [List.cons_append, List.nil_append, List.mem_cons, List.mem_map] at hs
  rcases hs with h1 | h2 | ⟨n, _, hn⟩
  · rw [h1]
    exact Int.natCast_nonneg _
  · rw [h2]
    exact h
  · rw [← hn]
    exact Int.natCast_nonneg _

/-- For a non-negative `max_length` the stub returns, and the result is the
tensor of shape `[numel, max_length] ++ sizes[1:]` with the options of
`t_in` and no data. -/
theorem pack_segments_ok (t_in lengths : Tensor) (max_length : Int) (h : 0 ≤ max_length) :
    pack_segments_forward_meta t_in lengths max_length =
      Except.ok { sizes := lengths.sizes.prod :: max_length.toNat :: t_in.sizes.drop 1,
                  options := t_in.options, data := [] } := by
  have hm : ((t_in.sizes.drop 1).map (fun (n : Nat) => (n : Int))).map Int.toNat
      = t_in.sizes.drop 1 := by
    rw [List.map_map]
    conv_rhs => rw [← List.map_id (t_in.sizes.drop 1)]
    apply List.map_congr_left
    intro a _
    simp
  rw [pack_segments_unfold, empty_of_nonneg _ _ (pack_shape_nonneg t_in lengths max_length h)]
  simp only [Tensor.numel, List.cons_append, List.nil_append, List.map_cons, Int.toNat_natCast,
    hm]

/-! ## Output shapes -/

/-- C1: for an input of shape `[d0, d1, ..., dk]`, a one-dimensional
`lengths` of length `L` and a non-negative `max_length`,
`pack_segments_forward_meta` returns a tensor whose shape is exactly
`[L, max_length, d1, ..., dk]`, that is `[L, max_length]` followed by the
input's shape after its first dimension. -/
theorem C1_pack_segments_shape (input lengths : Tensor) (d0 L : Nat) (ds : List Nat)
    (max_length : Int) (hin : input.sizes = d0 :: ds) (hlen : lengths.sizes = [L])
    (hmax : 0 ≤ max_length) :
    ∃ t, pack_segments_forward_meta input lengths max_length = Except.ok t ∧
      t.shape = (L : Int) :: max_length :: ds.map (fun (n : Nat) => (n : Int)) ∧
      t.shape = [(L : Int), max_length] ++ input.shape.drop 1 := by
  refine ⟨_, pack_segments_ok input lengths max_length hmax, ?_, ?_⟩
  · simp only [Tensor.shape, hin, hlen, List.drop_succ_cons, List.drop_zero, List.map_cons,
      List.prod_cons, List.prod_nil, mul_one, Int.toNat_of_nonneg hmax]
  · simp only [Tensor.shape, hin, hlen, List.drop_succ_cons, List.drop_zero, List.map_cons,
      List.prod_cons, List.prod_nil, mul_one, Int.toNat_of_nonneg hmax, List.cons_append,
      List.nil_append]

/-- C1 at the specification's example: input shape `[4, 3]`, `lengths` of
length 2 and `max_length` 5 give shape `[2, 5, 3]`. -/
theorem C1_pack_segments_shape_witness :
    ∃ t, pack_segments_forward_meta sample_input sample_lengths 5 = Except.ok t ∧
      t.shape = [2, 5, 3] := by
  obtain ⟨t, h1, h2, _⟩ :=
    C1_pack_segments_shape sample_input sample_lengths 4 2 [3] 5 rfl rfl (by decide)
  exact ⟨t, h1, h2⟩

/-- C2: for every `offsets` tensor and every non-negative `range_size` `R`,
`offsets_range_meta_symint` returns a tensor whose shape is exactly `[R]`,
whatever the shape of `offsets`. -/
theorem C2_offsets_range_shape (offsets : Tensor) (R : Int) (hR : 0 ≤ R) :
    ∃ t, offsets_range_meta_symint offsets R = Except.ok t ∧ t.shape = [R] := by
  have hnn : ∀ s ∈ ([R] : DimVector), 0 ≤ s := by
    intro s hs
    rw [List.mem_singleton] at hs
    rw [hs]
    exact hR
  refine ⟨_, empty_of_nonneg [R] offsets.options hnn, ?_⟩
  simp only [Tensor.shape, List.map_cons, List.map_nil, Int.toNat_of_nonneg hR]

/-- C2 at the specification's example: ten offsets and `range_size` 7 give
shape `[7]`. -/
theorem C2_offsets_range_shape_witness :
    ∃ t, offsets_range_meta_symint sample_offsets 7 = Except.ok t ∧ t.shape = [7] :=
  C2_offsets_range_shape sample_offsets 7 (by decide)

/-! ## Options and data independence -/

/-- C3: whenever a stub returns a result, the result has the options of the
first tensor argument: those of `input` for `pack_segments_forward_meta`
(whatever the options of `lengths`), those of `offsets` for
`offsets_range_meta_symint`. -/
theorem C3_result_options :
    (∀ (input lengths : Tensor) (max_length : Int) (t : Tensor),
      pack_segments_forward_meta input lengths max_length = Except.ok t →
        t.options = input.options) ∧
    (∀ (offsets : Tensor) (range_size : Int) (t : Tensor),
      offsets_range_meta_symint offsets range_size = Except.ok t →
        t.options = offsets.options) := by
  have key : ∀ (size : DimVector) (o : TensorOptions) (t : Tensor),
      empty size o = Except.ok t → t.options = o := by
    intro size o t h
    unfold empty at h
    cases hfind : size.find? (fun s => decide (s < 0)) with
    | none =>
      rw [hfind] at h
      injection h with h
      rw [← h]
    | some x =>
      rw [hfind] at h
      cases h
  constructor
  · intro input lengths max_length t h
    rw [pack_segments_unfold] at h
    exact key _ _ _ h
  · intro offsets range_size t h
    exact key _ _ _ h

/-- C3 on sample tensors: the input is single precision and `lengths` is
64-bit integer; the result is single precision. -/
theorem C3_result_options_witness :
    (∃ t, pack_segments_forward_meta sample_input sample_lengths 5 = Except.ok t ∧
      t.options = sample_input.options ∧ t.options ≠ sample_lengths.options) ∧
    (∃ t, offsets_range_meta_symint sample_offsets 7 = Except.ok t ∧
      t.options = sample_offsets.options) := by
  refine ⟨⟨_, rfl, ?_, ?_⟩, ⟨_, rfl, ?_⟩⟩
  · exact C3_result_options.1 sample_input sample_lengths 5 _ rfl
  · decide
  · exact C3_result_options.2 sample_offsets 7 _ rfl

/-- C4: neither stub reads element data: two calls whose tensor arguments
agree on shape and options (and may differ in element data), with the same
scalar parameter, return the same result. -/
theorem C4_no_data_dependence :
    (∀ (a b la lb : Tensor) (max_length : Int),
      a.sizes = b.sizes → a.options = b.options →
      la.sizes = lb.sizes → la.options = lb.options →
        pack_segments_forward_meta a la max_length =
          pack_segments_forward_meta b lb max_length) ∧
    (∀ (oa ob : Tensor) (range_size : Int),
      oa.sizes = ob.sizes → oa.options = ob.options →
        offsets_range_meta_symint oa range_size =
          offsets_range_meta_symint ob range_size) := by
  constructor
  · intro a b la lb max_length hs ho hls _
    rw [pack_segments_unfold, pack_segments_unfold, hs, ho]
    simp only [Tensor.numel, hls]
  · intro oa ob range_size _ ho
    simp only [offsets_range_meta_symint, Tensor.get_options, ho]

/-- C4 on sample tensors: the element data is replaced, the results agree. -/
theorem C4_no_data_dependence_witness :
    sample_input.data ≠ [] ∧
    pack_segments_forward_meta sample_input sample_lengths 5 =
      pack_segments_forward_meta { sample_input with data := [] }
        { sample_lengths with data := [9, 9] } 5 ∧
    offsets_range_meta_symint sample_offsets 7 =
      offsets_range_meta_symint { sample_offsets with data := [] } 7 :=
  ⟨by decide,
   C4_no_data_dependence.1 sample_input _ sample_lengths _ 5 rfl rfl rfl rfl,
   C4_no_data_dependence.2 sample_offsets _ 7 rfl rfl⟩

/-! ## Failure behaviour -/

/-- C5, refuted as stated: it is not the case that every rank-0 input makes
`pack_segments_forward_meta` fail; a scalar input with two segment lengths
and `max_length` 5 returns a tensor. -/
theorem C5_rank0_counterexample :
    ¬ (∀ (input lengths : Tensor) (max_length : Int), input.sizes = [] →
        failed (pack_segments_forward_meta input lengths max_length) = true) := by
  intro h
  have h1 := h sample_scalar sample_lengths 5 rfl
  have h2 : pack_segments_forward_meta sample_scalar sample_lengths 5 =
      Except.ok { sizes := [2, 5], options := float_meta, data := [] } := rfl
  rw [h2] at h1
  exact Bool.false_ne_true h1

/-- C5, amended: for a rank-0 input the dimension range `irange(1, dim)` is
empty, so although every dimension access `input.size(i)` would fail, none
is made; for every non-negative `max_length` the stub returns a tensor of
shape `[lengths.numel(), max_length]` with the options of the input. -/
theorem C5_rank0_returns (input lengths : Tensor) (max_length : Int)
    (hrank : input.sizes = []) (hmax : 0 ≤ max_length) :
    (∀ i : Int, failed (input.size i) = true) ∧
    irange 1 input.dim = [] ∧
    ∃ t, pack_segments_forward_meta input lengths max_length = Except.ok t ∧
      t.shape = [lengths.numel, max_length] ∧ t.options = input.options := by
  refine ⟨?_, ?_, _, pack_segments_ok input lengths max_length hmax, ?_, rfl⟩
  · intro i
    simp [Tensor.size, Tensor.dim, maybe_wrap_dim, hrank, failed, bind, Except.bind]
  · apply irange_empty
    simp [Tensor.dim, hrank]
  · simp only [Tensor.shape, Tensor.numel, hrank, List.drop_nil, List.map_cons, List.map_nil,
      Int.toNat_of_nonneg hmax]

/-- C5 amended, on a sample scalar input. -/
theorem C5_rank0_returns_witness :
    failed (sample_scalar.size 0) = true ∧
    ∃ t, pack_segments_forward_meta sample_scalar sample_lengths 5 = Except.ok t ∧
      t.shape = [2, 5] := by
  obtain ⟨hsz, _, t, h1, h2, _⟩ :=
    C5_rank0_returns sample_scalar sample_lengths 5 rfl (by decide)
  exact ⟨hsz 0, t, h1, h2⟩

/-- C6: with the host constructor failing exactly on a negative requested
size, `pack_segments_forward_meta` on an input of rank at least 1 fails if
and only if `max_length < 0`, and `offsets_range_meta_symint` fails if and
only if `range_size < 0`; in particular `max_length = 0` is accepted, and
so is every non-negative `max_length` whatever the segment lengths held in
`lengths` are. -/
theorem C6_fails_iff_negative :
    (∀ (input lengths : Tensor) (max_length : Int), 1 ≤ input.sizes.length →
      (failed (pack_segments_forward_meta input lengths max_length) = true ↔
        max_length < 0)) ∧
    (∀ (offsets : Tensor) (range_size : Int),
      (failed (offsets_range_meta_symint offsets range_size) = true ↔ range_size < 0)) ∧
    (∀ (input lengths : Tensor), 1 ≤ input.sizes.length →
      failed (pack_segments_forward_meta input lengths 0) = false) ∧
    (∀ (input lengths : Tensor) (max_length : Int), 1 ≤ input.sizes.length →
      0 ≤ max_length →
        failed (pack_segments_forward_meta input lengths max_length) = false) := by
  have hpack : ∀ (input lengths : Tensor) (max_length : Int),
      (failed (pack_segments_forward_meta input lengths max_length) = true ↔
        max_length < 0) := by
    intro input lengths max_length
    rw [pack_segments_unfold, empty_failed_iff]
    constructor
    · rintro ⟨s, hs, hlt⟩
      simp only [List.cons_append, List.nil_append, List.mem_cons, List.mem_map] at hs
      rcases hs with h1 | h2 | ⟨n, _, hn⟩
      · rw [h1] at hlt
        have : (0 : Int) ≤ lengths.numel := Int.natCast_nonneg _
        omega
      · rw [h2] at hlt
        exact hlt
      · have : (0 : Int) ≤ (n : Int) := Int.natCast_nonneg _
        omega
    · intro hlt
      exact ⟨max_length, by simp, hlt⟩
  have hok : ∀ (input lengths : Tensor) (max_length : Int), 0 ≤ max_length →
      failed (pack_segments_forward_meta input lengths max_length) = false := by
    intro input lengths max_length hmax
    cases hf : failed (pack_segments_forward_meta input lengths max_length) with
    | false => rfl
    | true =>
      have := (hpack input lengths max_length).1 hf
      omega
  refine ⟨fun input lengths max_length _ => hpack input lengths max_length, ?_, ?_, ?_⟩
  · intro offsets range_size
    unfold offsets_range_meta_symint empty_symint
    rw [empty_failed_iff]
    constructor
    · rintro ⟨s, hs, hlt⟩
      rw [List.mem_singleton] at hs
      rw [hs] at hlt
      exact hlt
    · intro hlt
      exact ⟨range_size, by simp, hlt⟩
  · intro input lengths _
    exact hok input lengths 0 (le_refl 0)
  · intro input lengths max_length _ hmax
    exact hok input lengths max_length hmax

/-- C6 on sample tensors: `max_length` of -1 fails and 0 is accepted, with
segment lengths 1 and 3, and so are 2 and 100; `range_size` of -1 fails and
7 is accepted. -/
theorem C6_fails_iff_negative_witness :
    failed (pack_segments_forward_meta sample_input sample_lengths (-1)) = true ∧
    failed (pack_segments_forward_meta sample_input sample_lengths 0) = false ∧
    failed (pack_segments_forward_meta sample_input sample_lengths 2) = false ∧
    failed (pack_segments_forward_meta sample_input sample_lengths 100) = false ∧
    failed (offsets_range_meta_symint sample_offsets (-1)) = true ∧
    failed (offsets_range_meta_symint sample_offsets 7) = false :=
  ⟨(C6_fails_iff_negative.1 sample_input sample_lengths (-1) (by decide)).2 (by decide),
   C6_fails_iff_negative.2.2.1 sample_input sample_lengths (by decide),
   C6_fails_iff_negative.2.2.2 sample_input sample_lengths 2 (by decide) (by decide),
   C6_fails_iff_negative.2.2.2 sample_input sample_lengths 100 (by decide) (by decide),
   (C6_fails_iff_negative.2.1 sample_offsets (-1)).2 (by decide),
   rfl⟩

/-! ## Registration -/

/-- C7: the registration block contributes exactly the pairs
(pack_segments, Meta), (asynchronous_complete_cumsum, Meta),
(offsets_range, Meta), which are pairwise distinct; applied once to a
registry that rejects duplicate pairs and holds none of them, it succeeds
and adds exactly three entries, with these pairs in this order. -/
theorem C7_registers_three_distinct :
    registered_pairs.Nodup ∧
    ∀ r : Registry, (∀ p ∈ registered_pairs, p ∉ r.pairs) →
      ∃ added : Registry, TORCH_LIBRARY_IMPL_fbgemm_Meta r = Except.ok (r ++ added) ∧
        added.pairs = registered_pairs ∧ added.length = 3 := by
  constructor
  · decide
  · intro r h
    have h1 : ("pack_segments", DispatchKey.Meta) ∉ r.pairs :=
      h _ (by simp [registered_pairs])
    have h2 : ("asynchronous_complete_cumsum", DispatchKey.Meta) ∉ r.pairs :=
      h _ (by simp [registered_pairs])
    have h3 : ("offsets_range", DispatchKey.Meta) ∉ r.pairs :=
      h _ (by simp [registered_pairs])
    have s1 : impl DispatchKey.Meta r "pack_segments" KernelFn.pack_segments_forward_meta
        = Except.ok (r ++
        [Registration.mk "pack_segments" DispatchKey.Meta
          KernelFn.pack_segments_forward_meta]) := by
      unfold impl
      rw [if_neg h1]
    have h2b : ("asynchronous_complete_cumsum", DispatchKey.Meta) ∉ Registry.pairs (r ++
        [Registration.mk "pack_segments" DispatchKey.Meta
          KernelFn.pack_segments_forward_meta]) := by
      intro hm
      simp only [Registry.pairs, List.map_append, List.map_cons, List.map_nil,
        List.mem_append, List.mem_singleton] at hm
      rcases hm with hm | hm
      · exact h2 hm
      · exact absurd hm (by decide)
    have s2 : impl DispatchKey.Meta (r ++
        [Registration.mk "pack_segments" DispatchKey.Meta
          KernelFn.pack_segments_forward_meta])
        "asynchronous_complete_cumsum" KernelFn.asynchronous_complete_cumsum_meta
        = Except.ok (r ++
        [Registration.mk "pack_segments" DispatchKey.Meta
          KernelFn.pack_segments_forward_meta,
         Registration.mk "asynchronous_complete_cumsum" DispatchKey.Meta
          KernelFn.asynchronous_complete_cumsum_meta]) := by
      unfold impl
      rw [if_neg h2b, List.append_assoc]
      rfl
    have h3b : ("offsets_range", DispatchKey.Meta) ∉ Registry.pairs (r ++
        [Registration.mk "pack_segments" DispatchKey.Meta
          KernelFn.pack_segments_forward_meta,
         Registration.mk "asynchronous_complete_cumsum" DispatchKey.Meta
          KernelFn.asynchronous_complete_cumsum_meta]) := by
      intro hm
      simp only [Registry.pairs, List.map_append, List.map_cons, List.map_nil,
        List.mem_append, List.mem_cons, List.mem_singleton] at hm
      rcases hm with hm | hm | hm
      · exact h3 hm
      · exact absurd hm (by decide)
      · exact absurd hm (by decide)
    refine ⟨
        [Registration.mk "pack_segments" DispatchKey.Meta
          KernelFn.pack_segments_forward_meta,
         Registration.mk "asynchronous_complete_cumsum" DispatchKey.Meta
          KernelFn.asynchronous_complete_cumsum_meta,
         Registration.mk "offsets_range" DispatchKey.Meta
          KernelFn.offsets_range_meta_symint], ?_, rfl, rfl⟩
    unfold TORCH_LIBRARY_IMPL_fbgemm_Meta
    simp only [bind, Except.bind, s1, s2]
    unfold impl
    rw [if_neg h3b, List.append_assoc]
    rfl

/-- C7 on the empty registry: the block registers its three entries; run a
second time on the result, it is rejected as a duplicate. -/
theorem C7_registers_three_distinct_witness :
    (∃ added : Registry, TORCH_LIBRARY_IMPL_fbgemm_Meta [] = Except.ok ([] ++ added) ∧
      added.pairs = registered_pairs ∧ added.length = 3) ∧
    failed ((TORCH_LIBRARY_IMPL_fbgemm_Meta []).bind TORCH_LIBRARY_IMPL_fbgemm_Meta) = true :=
  ⟨C7_registers_three_distinct.2 [] (by intro p _; exact List.not_mem_nil p), by decide⟩

/-! ## The leading output dimension -/

/-- C8, refuted as stated: the first output dimension can coincide with the
leading dimension of `lengths` although `lengths` is not one-dimensional
and its other dimensions do not multiply to 1; a `lengths` of shape
`[0, 2]` gives first dimension 0. -/
theorem C8_leading_dim_counterexample :
    ¬ (∀ (input lengths t : Tensor) (max_length : Int) (l0 : Nat) (ls : List Nat),
        lengths.sizes = l0 :: ls →
        pack_segments_forward_meta input lengths max_length = Except.ok t →
        t.shape.head? = some (l0 : Int) → (ls = [] ∨ ls.prod = 1)) := by
  intro h
  have h1 := h sample_input { sample_lengths with sizes := [0, 2], data := [] }
    { sizes := [0, 5, 3], options := float_meta, data := [] } 5 0 [2] rfl rfl rfl
  revert h1
  decide

/-- C8, amended: the first output dimension of `pack_segments_forward_meta`
is the total element count of `lengths`, the product of its dimension
sizes (1 for a rank-0 `lengths`); it coincides with the leading dimension
`l0` of `lengths` exactly when `l0 = 0`, or `lengths` is one-dimensional,
or its other dimensions multiply to 1. -/
theorem C8_first_dim_is_numel (input lengths : Tensor) (max_length : Int)
    (hmax : 0 ≤ max_length) :
    ∃ t, pack_segments_forward_meta input lengths max_length = Except.ok t ∧
      t.shape.head? = some lengths.numel ∧
      lengths.numel = ((lengths.sizes.prod : Nat) : Int) ∧
      (lengths.sizes = [] → lengths.numel = 1) ∧
      (∀ (l0 : Nat) (ls : List Nat), lengths.sizes = l0 :: ls →
        (lengths.numel = (l0 : Int) ↔ (l0 = 0 ∨ ls = [] ∨ ls.prod = 1))) := by
  refine ⟨_, pack_segments_ok input lengths max_length hmax, rfl, rfl, ?_, ?_⟩
  · intro hnil
    simp [Tensor.numel, hnil]
  · intro l0 ls hls
    have hnum : lengths.numel = ((l0 * ls.prod : Nat) : Int) := by
      simp only [Tensor.numel, hls, List.prod_cons]
    rw [hnum, Int.natCast_inj]
    constructor
    · intro heq
      rcases Nat.eq_zero_or_pos l0 with h0 | hpos
      · exact Or.inl h0
      · right
        right
        have h2 : l0 * ls.prod = l0 * 1 := by rw [heq, mul_one]
        exact Nat.eq_of_mul_eq_mul_left hpos h2
    · rintro (h0 | hnil | hone)
      · rw [h0, zero_mul]
      · rw [hnil, List.prod_nil, mul_one]
      · rw [hone, mul_one]

/-- C8 amended, on a `lengths` of shape `[2, 3]`: the first output dimension
is 6, not 2. -/
theorem C8_first_dim_is_numel_witness :
    ∃ t, pack_segments_forward_meta sample_input
        { sample_lengths with sizes := [2, 3], data := [1, 0, 2, 0, 1, 0] } 5 = Except.ok t ∧
      t.shape.head? = some 6 := by
  obtain ⟨t, h1, h2, _⟩ := C8_first_dim_is_numel sample_input
    { sample_lengths with sizes := [2, 3], data := [1, 0, 2, 0, 1, 0] } 5 (by decide)
  exact ⟨t, h1, h2⟩

/-- C9: the result of `pack_segments_forward_meta` does not depend on the
input's leading dimension: two inputs of the same rank at least 1, with
equal options and equal sizes after the first, give equal results for the
same `lengths` and `max_length`, whatever their leading sizes. -/
theorem C9_leading_dim_irrelevant (a b lengths : Tensor) (max_length : Int)
    (hrank : a.sizes.length = b.sizes.length) (hpos : 1 ≤ a.sizes.length)
    (hopt : a.options = b.options) (htail : a.sizes.drop 1 = b.sizes.drop 1) :
    pack_segments_forward_meta a lengths max_length =
      pack_segments_forward_meta b lengths max_length := by
  rw [pack_segments_unfold, pack_segments_unfold, hopt, htail]

/-- C9 on inputs of shapes `[4, 3]` and `[1000, 3]` with two segment lengths
summing to 4. -/
theorem C9_leading_dim_irrelevant_witness :
    pack_segments_forward_meta sample_input sample_lengths 5 =
      pack_segments_forward_meta { sample_input with sizes := [1000, 3] } sample_lengths 5 :=
  C9_leading_dim_irrelevant sample_input { sample_input with sizes := [1000, 3] }
    sample_lengths 5 rfl (by decide) rfl rfl

/-! ## The toolchain gate -/

/-- C10: the version test `major > 11 || minor >= 4` agrees with the
lexicographic comparison `(major, minor) >= (11, 4)` for every version with
`major >= 11`; for `major < 11` the two differ exactly when `minor >= 4`,
for example at 10.4, where the test holds. -/
theorem C10_version_gate (major minor : Int) :
    (11 ≤ major → cudacc_version_gate major minor = version_lex_ge_11_4 major minor) ∧
    (major < 11 →
      (cudacc_version_gate major minor ≠ version_lex_ge_11_4 major minor ↔ 4 ≤ minor)) ∧
    cudacc_version_gate 10 4 = true ∧ version_lex_ge_11_4 10 4 = false := by
  refine ⟨?_, ?_, by decide, by decide⟩
  · intro h
    unfold cudacc_version_gate version_lex_ge_11_4
    by_cases h1 : major > 11
    · simp [h1]
    · have h2 : major = 11 := by omega
      simp [h2]
  · intro h
    have h1 : ¬ (major > 11) := by omega
    have h2 : ¬ (major = 11) := by omega
    unfold cudacc_version_gate version_lex_ge_11_4
    simp [h1, h2]

/-- C10 at versions 11.3, 11.4, 12.0 (the two tests agree) and 10.4, 10.3
(they differ at 10.4 only). -/
theorem C10_version_gate_witness :
    cudacc_version_gate 11 3 = version_lex_ge_11_4 11 3 ∧
    cudacc_version_gate 11 4 = version_lex_ge_11_4 11 4 ∧
    cudacc_version_gate 12 0 = version_lex_ge_11_4 12 0 ∧
    cudacc_version_gate 10 4 ≠ version_lex_ge_11_4 10 4 ∧
    ¬ (cudacc_version_gate 10 3 ≠ version_lex_ge_11_4 10 3) :=
  ⟨(C10_version_gate 11 3).1 (by decide),
   (C10_version_gate 11 4).1 (by decide),
   (C10_version_gate 12 0).1 (by decide),
   ((C10_version_gate 10 4).2.1 (by decide)).2 (by decide),
   fun h => absurd (((C10_version_gate 10 3).2.1 (by decide)).1 h) (by decide)⟩

end fbgemm_gpu
